import Mathlib

/-!
Verification of the HTTP access-control layer of `jsonrpsee`
(`http-server/src/access_control/mod.rs`): host allow-listing, CORS origin
resolution and CORS requested-header validation, together with the
`AccessControl` / `AccessControlBuilder` configuration values.

Strings are modelled as Lean `String`s; where the Rust code works on raw
header bytes, a header value is modelled as `Option String` (`none` meaning
the raw bytes are not valid UTF-8, which is the only observation the code
ever makes of such a value).
-/

set_option autoImplicit false

namespace AccessCtrl

/-- Lower-casing of a string, character by character (models Rust
case-insensitive comparison of header names and host patterns). -/
def lower (s : String) : String := ⟨s.data.map Char.toLower⟩

/-- Splitting a character list on every non-overlapping occurrence of the
(non-empty) separator `sep`, keeping empty pieces, as Rust `str::split`
does. The `Nat` argument is structural fuel; `sep.length ≥ 1` guarantees
`s.length` fuel is enough. -/
def splitOnChars (sep : List Char) : Nat → List Char → List Char → List (List Char)
  | 0, s, acc => [acc.reverse ++ s]
  | fuel + 1, s, acc =>
    match s with
    | [] => [acc.reverse]
    | c :: rest =>
      if sep.isPrefixOf (c :: rest) then
        acc.reverse :: splitOnChars sep fuel ((c :: rest).drop sep.length) []
      else
        splitOnChars sep fuel rest (c :: acc)

/-- `str::split` on a literal (non-empty) separator string. -/
def splitOnStr (sep s : String) : List String :=
  (splitOnChars sep.data s.data.length s.data []).map (fun l => ⟨l⟩)

/-- A single request header entry: a (case-insensitively looked-up) name and
a value, `none` standing for raw bytes that are not valid UTF-8. -/
structure HeaderEntry where
  name : String
  value : Option String
  deriving DecidableEq, Repr

/-- A request's header map, in insertion order (a name may repeat). -/
abbrev HeaderMap := List HeaderEntry

/-- Modelled from the spec: `jsonrpsee_utils::http_helpers::read_header_value`
(not under `src/`): read a single header's value as an optional string;
case-insensitive on the header name, absent header or non-UTF-8 value gives
`none` (first entry with the name wins, as in `hyper`'s `HeaderMap::get`). -/
def read_header_value (hs : HeaderMap) (name : String) : Option String :=
  (hs.find? (fun h => lower h.name == lower name)).bind (·.value)

/-- Modelled from the spec: `jsonrpsee_utils::http_helpers::read_header_values`
(not under `src/`): all values of a repeated header, in order, each `none`
when its raw bytes are not valid UTF-8. -/
def read_header_values (hs : HeaderMap) (name : String) : List (Option String) :=
  (hs.filter (fun h => lower h.name == lower name)).map (·.value)

/-- Modelled from the spec: validity of a single character of an HTTP header
value, per the `http` crate contract used by `HeaderValue::from_str`
(byte 9, or a byte in 32..=255 other than 127; characters above 127 are
encoded in UTF-8 as bytes 128..=255, all valid). -/
def isValidHeaderValueChar (c : Char) : Bool :=
  c == '\t' || (32 ≤ c.toNat && c.toNat != 127)

/-- Modelled from the spec: `hyper::header::HeaderValue::from_str`, an
external collaborator: succeeds exactly when every character is a valid
header-value character. -/
def headerValueFromStr (s : String) : Option String :=
  if s.data.all isValidHeaderValueChar then some s else none

/-- A configured host pattern / parsed `Host` header (`hosts::Host`). -/
abbrev Host := String

/-- Modelled from the spec: `hosts::AllowHosts` (not under `src/`):
no restriction, or an ordered allow-list of host patterns. -/
inductive AllowHosts where
  | any
  | only (hosts : List Host)
  deriving DecidableEq, Repr

/-- Modelled from the spec: the wildcard matcher `matcher::matches`
(not under `src/`): a pattern starting with `*.` matches any candidate that
case-insensitively ends with `.` followed by the remainder (subdomains only,
not the bare domain); any other pattern matches by case-insensitive
equality. -/
def matchesPattern (pattern candidate : String) : Bool :=
  if "*.".data.isPrefixOf pattern.data then
    let rest : String := ⟨pattern.data.drop 2⟩
    (lower ("." ++ rest)).data.isSuffixOf (lower candidate).data
  else
    lower pattern == lower candidate

/-- Modelled from the spec: `hosts::is_host_valid` (not under `src/`):
`Any` accepts everything; `Only(list)` accepts a present host header that
matches at least one pattern, and rejects an absent host header. -/
def is_host_valid (host : Option String) (allowHosts : AllowHosts) : Bool :=
  match allowHosts with
  | .any => true
  | .only list =>
    match host with
    | none => false
    | some h => list.any (fun pat => matchesPattern pat h)

/-- Modelled from the spec: `cors::AccessControlAllowOrigin` (not under
`src/`): a single configured acceptable origin, or the wildcard / null
sentinels. -/
inductive AccessControlAllowOrigin where
  | any
  | null
  | value (origin : String)
  deriving DecidableEq, Repr

/-- Modelled from the spec: `cors::AccessControlAllowHeaders` (not under
`src/`): any header name allowed, or only those in an ordered list. -/
inductive AccessControlAllowHeaders where
  | any
  | only (headers : List String)
  deriving DecidableEq, Repr

/-- Modelled from the spec: `cors::AllowCors` (not under `src/`): the shared
CORS resolution outcome. -/
inductive AllowCors (α : Type) where
  | invalid
  | notRequired
  | ok (value : α)
  deriving DecidableEq, Repr

/-- Modelled from the spec: functorial `map` on `AllowCors`, applied only to
the `ok` payload; `invalid` and `notRequired` are preserved. -/
def AllowCors.map {α β : Type} (f : α → β) : AllowCors α → AllowCors β
  | .invalid => .invalid
  | .notRequired => .notRequired
  | .ok a => .ok (f a)

/-- The Rust comparison `header == AllowCors::Invalid` used by both deny
predicates. -/
def AllowCors.isInvalid {α : Type} : AllowCors α → Bool
  | .invalid => true
  | _ => false

/-- Modelled from the spec: scanning the configured origin allow-list in
order: an `Any` entry resolves immediately to `Ok(Any)`; a `Null` entry
matches only the literal origin string `"null"`; a `Value(v)` entry matches
by case-sensitive equality with the origin; no match gives `Invalid`. -/
def scanOrigins (origin : String) : List AccessControlAllowOrigin → AllowCors AccessControlAllowOrigin
  | [] => .invalid
  | .any :: _ => .ok .any
  | .null :: rest =>
    if origin == "null" then .ok .null else scanOrigins origin rest
  | .value v :: rest =>
    if v == origin then .ok (.value v) else scanOrigins origin rest

/-- Modelled from the spec: `cors::get_cors_allow_origin` (not under `src/`):
absent origin header gives `NotRequired`; an origin equal to the host header
is same-origin and resolves to a permissive `Ok` without consulting the
allow-list; a `None` policy means CORS is disabled and gives `Invalid`;
otherwise the allow-list is scanned in order. -/
def get_cors_allow_origin (origin host : Option String)
    (policy : Option (List AccessControlAllowOrigin)) : AllowCors AccessControlAllowOrigin :=
  match origin with
  | none => .notRequired
  | some o =>
    if host == some o then .ok (.value o)
    else
      match policy with
      | none => .invalid
      | some list => scanOrigins o list

/-- Modelled from the spec: `cors::get_cors_allow_headers` (not under
`src/`): an empty requested-headers sequence gives `NotRequired`; an `Any`
policy accepts every requested header; an `Only(list)` policy requires every
requested header name to case-insensitively equal some entry, otherwise
`Invalid`; on success the caller-provided `toHeaderValue` builds the
representative values. -/
def get_cors_allow_headers (headers requested : List String)
    (policy : AccessControlAllowHeaders)
    (toHeaderValue : String → String) : AllowCors (List String) :=
  let _ := headers
  if requested.isEmpty then .notRequired
  else
    match policy with
    | .any => .ok (requested.map toHeaderValue)
    | .only list =>
      if requested.all (fun r => list.any (fun e => lower e == lower r)) then
        .ok (requested.map toHeaderValue)
      else .invalid

/-- `AccessControl` (mod.rs lines 40-46): the frozen policy value. -/
structure AccessControl where
  allow_hosts : AllowHosts
  cors_allow_origin : Option (List AccessControlAllowOrigin)
  cors_allow_headers : AccessControlAllowHeaders
  continue_on_invalid_cors : Bool
  deriving DecidableEq, Repr

/-- `AccessControl::deny_host` (mod.rs lines 50-52). -/
def AccessControl.deny_host (ac : AccessControl) (hs : HeaderMap) : Bool :=
  !(is_host_valid (read_header_value hs "host") ac.allow_hosts)

/-- The closure of mod.rs lines 61-69: an `Ok` origin mapped to a concrete
header-value string, substituting `"null"` when construction fails. -/
def originToHeaderValue : AccessControlAllowOrigin → String
  | .value v => (headerValueFromStr v).getD "null"
  | .null => "null"
  | .any => "*"

/-- `AccessControl::deny_cors_origin` (mod.rs lines 55-72). -/
def AccessControl.deny_cors_origin (ac : AccessControl) (hs : HeaderMap) : Bool :=
  let header :=
    (get_cors_allow_origin (read_header_value hs "origin") (read_header_value hs "host")
        ac.cors_allow_origin).map originToHeaderValue
  header.isInvalid && !ac.continue_on_invalid_cors

/-- The closure of mod.rs line 83: a requested header name mapped to a
header-value string, substituting `"unknown"` when construction fails. -/
def headerNameToHeaderValue (name : String) : String :=
  (headerValueFromStr name).getD "unknown"

/-- The requested-headers pipeline of mod.rs lines 77-80: every value of
`access-control-request-headers`, non-UTF-8 values filtered out, each value
split on `", "` and then each piece split on `","`. -/
def requestedHeadersOf (hs : HeaderMap) : List String :=
  (((read_header_values hs "access-control-request-headers").filterMap id).flatMap
      (fun v => splitOnStr ", " v)).flatMap
    (fun v => splitOnStr "," v)

/-- `AccessControl::deny_cors_header` (mod.rs lines 75-86). -/
def AccessControl.deny_cors_header (ac : AccessControl) (hs : HeaderMap) : Bool :=
  let headers := hs.map (·.name)
  let header :=
    get_cors_allow_headers headers (requestedHeadersOf hs) ac.cors_allow_headers
      headerNameToHeaderValue
  header.isInvalid && !ac.continue_on_invalid_cors

/-- `impl Default for AccessControl` (mod.rs lines 89-98). -/
def AccessControl.default : AccessControl :=
  { allow_hosts := .any
    cors_allow_origin := none
    cors_allow_headers := .any
    continue_on_invalid_cors := false }

/-- `AccessControlBuilder` (mod.rs lines 101-107). -/
structure AccessControlBuilder where
  allow_hosts : AllowHosts
  cors_allow_origin : Option (List AccessControlAllowOrigin)
  cors_allow_headers : AccessControlAllowHeaders
  continue_on_invalid_cors : Bool
  deriving DecidableEq, Repr

/-- `impl Default for AccessControlBuilder` (mod.rs lines 109-118). -/
def AccessControlBuilder.default : AccessControlBuilder :=
  { allow_hosts := .any
    cors_allow_origin := none
    cors_allow_headers := .any
    continue_on_invalid_cors := false }

/-- `AccessControlBuilder::new` (mod.rs lines 122-124). -/
def AccessControlBuilder.new : AccessControlBuilder :=
  AccessControlBuilder.default

/-- `AccessControlBuilder::allow_host` (mod.rs lines 127-137): `push` on a
Rust `Vec` appends at the end. -/
def AccessControlBuilder.allow_host (b : AccessControlBuilder) (host : Host) :
    AccessControlBuilder :=
  let allow_hosts :=
    match b.allow_hosts with
    | .any => [host]
    | .only hosts => hosts ++ [host]
  { b with allow_hosts := .only allow_hosts }

/-- `AccessControlBuilder::cors_allow_origin` (mod.rs lines 140-150); named
`add_cors_allow_origin` here because the Rust method shares its name with
the field it updates. -/
def AccessControlBuilder.add_cors_allow_origin (b : AccessControlBuilder)
    (allowOrigin : AccessControlAllowOrigin) : AccessControlBuilder :=
  let cors_allow_origin :=
    match b.cors_allow_origin with
    | some l => l ++ [allowOrigin]
    | none => [allowOrigin]
  { b with cors_allow_origin := some cors_allow_origin }

/-- `AccessControlBuilder::cors_allow_header` (mod.rs lines 153-163). -/
def AccessControlBuilder.cors_allow_header (b : AccessControlBuilder)
    (header : String) : AccessControlBuilder :=
  let allow_headers :=
    match b.cors_allow_headers with
    | .any => [header]
    | .only headers => headers ++ [header]
  { b with cors_allow_headers := .only allow_headers }

/-- `AccessControlBuilder::continue_on_invalid_cors` (mod.rs lines 166-169);
named `set_continue_on_invalid_cors` here because the Rust method shares its
name with the field it updates. -/
def AccessControlBuilder.set_continue_on_invalid_cors (b : AccessControlBuilder)
    (flag : Bool) : AccessControlBuilder :=
  { b with continue_on_invalid_cors := flag }

/-- `AccessControlBuilder::build` (mod.rs lines 172-179). -/
def AccessControlBuilder.build (b : AccessControlBuilder) : AccessControl :=
  { allow_hosts := b.allow_hosts
    cors_allow_origin := b.cors_allow_origin
    cors_allow_headers := b.cors_allow_headers
    continue_on_invalid_cors := b.continue_on_invalid_cors }

/-! ## General lemmas -/

theorem map_isInvalid {α β : Type} (f : α → β) (x : AllowCors α) :
    (AllowCors.map f x).isInvalid = x.isInvalid := by
  cases x <;> rfl

theorem lower_acrh :
    lower "access-control-request-headers" = "access-control-request-headers" := by
  decide

theorem read_header_values_eq_nil (hs : HeaderMap) (name : String)
    (h : ∀ e ∈ hs, lower e.name ≠ lower name) :
    read_header_values hs name = [] := by
  unfold read_header_values
  rw [List.filter_eq_nil_iff.mpr, List.map_nil]
  intro e he
  simp only [beq_eq_false_iff_ne, ne_eq, Bool.not_eq_true]
  exact fun hc => h e he hc

theorem filterMap_values_of_filter_isSome (hs : HeaderMap) (p : HeaderEntry → Bool) :
    (((hs.filter (fun e => e.value.isSome)).filter p).map (·.value)).filterMap id =
      ((hs.filter p).map (·.value)).filterMap id := by
  induction hs with
  | nil => rfl
  | cons e t ih =>
    cases hval : e.value with
    | none =>
      by_cases hp : p e <;>
        simp_all [List.filter_cons]
    | some v =>
      by_cases hp : p e <;>
        simp_all [List.filter_cons]

/-! ## Claims -/

/-- C1: `deny_cors_origin` returns `true` iff the CORS origin resolution of
the request's origin and host headers against the configured
`cors_allow_origin` list is `Invalid` and `continue_on_invalid_cors` is
`false`; any `NotRequired` or `Ok` outcome gives `false` regardless of the
flag. -/
theorem deny_cors_origin_iff_invalid (ac : AccessControl) (hs : HeaderMap) :
    ac.deny_cors_origin hs = true ↔
      (get_cors_allow_origin (read_header_value hs "origin") (read_header_value hs "host")
          ac.cors_allow_origin = AllowCors.invalid ∧
        ac.continue_on_invalid_cors = false) := by
  cases hg : get_cors_allow_origin (read_header_value hs "origin") (read_header_value hs "host")
      ac.cors_allow_origin <;>
    simp [AccessControl.deny_cors_origin, hg, AllowCors.map, AllowCors.isInvalid]

/-- C2 counterexample: the default configuration is not maximally permissive
for CORS origins: its `cors_allow_origin` is `none`, under which a concrete
cross-origin request resolves to `Invalid` and is denied. -/
theorem default_cors_origin_not_permissive :
    get_cors_allow_origin (some "https://evil.com") (some "example.com")
        AccessControl.default.cors_allow_origin = AllowCors.invalid ∧
      AccessControl.default.deny_cors_origin
        [⟨"origin", some "https://evil.com"⟩, ⟨"host", some "example.com"⟩] = true := by
  constructor <;> decide

/-- C2 amended: the default configuration (`AccessControl::default` and
`AccessControlBuilder::default`/`new`) has `allow_hosts = Any`,
`cors_allow_origin = None` (no origin allow-list: a cross-origin request
resolves to `Invalid`), `cors_allow_headers = Any` and
`continue_on_invalid_cors = false`. -/
theorem default_fields :
    AccessControl.default.allow_hosts = AllowHosts.any ∧
    AccessControl.default.cors_allow_origin = none ∧
    AccessControl.default.cors_allow_headers = AccessControlAllowHeaders.any ∧
    AccessControl.default.continue_on_invalid_cors = false ∧
    AccessControlBuilder.new.allow_hosts = AllowHosts.any ∧
    AccessControlBuilder.new.cors_allow_origin = none ∧
    AccessControlBuilder.new.cors_allow_headers = AccessControlAllowHeaders.any ∧
    AccessControlBuilder.new.continue_on_invalid_cors = false ∧
    AccessControlBuilder.default = AccessControlBuilder.new :=
  ⟨rfl, rfl, rfl, rfl, rfl, rfl, rfl, rfl, rfl⟩

/-- C3 counterexample: in `deny_cors_header` the substitute for a requested
header name that is not constructible as a header value is the literal
`"unknown"`, not `"null"`: witnessed at the non-constructible name
`"x\ny"`. -/
theorem cors_header_sentinel_not_null :
    headerValueFromStr "x\ny" = none ∧
      headerNameToHeaderValue "x\ny" = "unknown" ∧
      headerNameToHeaderValue "x\ny" ≠ "null" := by
  refine ⟨by decide, by decide, by decide⟩

/-- C3 amended: whenever a resolved `Ok` string cannot be constructed into a
valid HTTP header value, `deny_cors_origin` substitutes the literal `"null"`
and `deny_cors_header` substitutes the literal `"unknown"`; in both, the
construction failure never changes the deny verdict (mapping the
representative value over an outcome preserves `Ok`-ness and never turns it
into `Invalid`). -/
theorem header_value_construction_recovers :
    (∀ v : String, headerValueFromStr v = none →
        originToHeaderValue (.value v) = "null") ∧
    (∀ n : String, headerValueFromStr n = none →
        headerNameToHeaderValue n = "unknown") ∧
    (∀ (f : AccessControlAllowOrigin → String) (a : AccessControlAllowOrigin),
        AllowCors.map f (AllowCors.ok a) = AllowCors.ok (f a)) ∧
    (∀ (f : AccessControlAllowOrigin → String) (x : AllowCors AccessControlAllowOrigin),
        (AllowCors.map f x).isInvalid = x.isInvalid) := by
  refine ⟨?_, ?_, fun f a => rfl, fun f x => map_isInvalid f x⟩
  · intro v h
    simp [originToHeaderValue, h]
  · intro n h
    simp [headerNameToHeaderValue, h]

/-- C3 amended, witness at the concrete non-constructible string `"x\ny"`. -/
theorem header_value_construction_recovers_witness :
    originToHeaderValue (.value "x\ny") = "null" ∧
      headerNameToHeaderValue "x\ny" = "unknown" :=
  ⟨header_value_construction_recovers.1 "x\ny" (by decide),
   header_value_construction_recovers.2.1 "x\ny" (by decide)⟩

/-- C4: `deny_host` is the pointwise negation of `is_host_valid` applied to
the request's optional `host` header and the configured `allow_hosts`. -/
theorem deny_host_iff_not_valid (ac : AccessControl) (hs : HeaderMap) :
    ac.deny_host hs = true ↔
      is_host_valid (read_header_value hs "host") ac.allow_hosts = false := by
  simp [AccessControl.deny_host]

/-- C5: when `continue_on_invalid_cors` is `true`, both `deny_cors_origin`
and `deny_cors_header` return `false` on every request, whatever the CORS
resolution outcome. -/
theorem continue_on_invalid_cors_never_denies (ac : AccessControl) (hs : HeaderMap)
    (h : ac.continue_on_invalid_cors = true) :
    ac.deny_cors_origin hs = false ∧ ac.deny_cors_header hs = false := by
  constructor <;>
    simp [AccessControl.deny_cors_origin, AccessControl.deny_cors_header, h]

/-- C5 witness: a policy with an empty origin allow-list and an empty header
allow-list but `continue_on_invalid_cors = true` denies neither check on a
cross-origin preflight request. -/
theorem continue_on_invalid_cors_never_denies_witness :
    (AccessControl.mk .any (some []) (.only []) true).deny_cors_origin
        [HeaderEntry.mk "origin" (some "https://evil.com"),
         HeaderEntry.mk "host" (some "example.com"),
         HeaderEntry.mk "access-control-request-headers" (some "x-foo")] = false ∧
      (AccessControl.mk .any (some []) (.only []) true).deny_cors_header
        [HeaderEntry.mk "origin" (some "https://evil.com"),
         HeaderEntry.mk "host" (some "example.com"),
         HeaderEntry.mk "access-control-request-headers" (some "x-foo")] = false :=
  continue_on_invalid_cors_never_denies (AccessControl.mk .any (some []) (.only []) true)
    [HeaderEntry.mk "origin" (some "https://evil.com"),
     HeaderEntry.mk "host" (some "example.com"),
     HeaderEntry.mk "access-control-request-headers" (some "x-foo")] rfl

/-- C6: each builder accumulation call appends exactly one item, an initial
`Any`/`None` becoming a one-element list, and `build` copies the four
accumulated fields unchanged into the `AccessControl`. -/
theorem builder_accumulates :
    (∀ (b : AccessControlBuilder) (h : Host),
        (b.allow_host h).allow_hosts =
          AllowHosts.only
            (match b.allow_hosts with
             | .any => [h]
             | .only l => l ++ [h])) ∧
    (∀ (b : AccessControlBuilder) (o : AccessControlAllowOrigin),
        (b.add_cors_allow_origin o).cors_allow_origin =
          some
            (match b.cors_allow_origin with
             | none => [o]
             | some l => l ++ [o])) ∧
    (∀ (b : AccessControlBuilder) (s : String),
        (b.cors_allow_header s).cors_allow_headers =
          AccessControlAllowHeaders.only
            (match b.cors_allow_headers with
             | .any => [s]
             | .only l => l ++ [s])) ∧
    (∀ b : AccessControlBuilder,
        b.build.allow_hosts = b.allow_hosts ∧
        b.build.cors_allow_origin = b.cors_allow_origin ∧
        b.build.cors_allow_headers = b.cors_allow_headers ∧
        b.build.continue_on_invalid_cors = b.continue_on_invalid_cors) := by
  refine ⟨?_, ?_, ?_, fun b => ⟨rfl, rfl, rfl, rfl⟩⟩
  · intro b h
    cases hb : b.allow_hosts <;> simp [AccessControlBuilder.allow_host, hb]
  · intro b o
    cases hb : b.cors_allow_origin <;> simp [AccessControlBuilder.add_cors_allow_origin, hb]
  · intro b s
    cases hb : b.cors_allow_headers <;> simp [AccessControlBuilder.cors_allow_header, hb]

/-- C7: the requested header names of `deny_cors_header` are exactly the
UTF-8 values of `access-control-request-headers`, each split on `", "` and
then on `","`; in particular both `"a, b"` and `"a,b"` yield the names `a`
and `b`. -/
theorem requested_headers_split :
    (∀ hs : HeaderMap,
        requestedHeadersOf hs =
          ((read_header_values hs "access-control-request-headers").filterMap id).flatMap
            (fun v => (splitOnStr ", " v).flatMap (fun w => splitOnStr "," w))) ∧
      (splitOnStr ", " "a, b").flatMap (fun w => splitOnStr "," w) = ["a", "b"] ∧
      (splitOnStr ", " "a,b").flatMap (fun w => splitOnStr "," w) = ["a", "b"] := by
  refine ⟨?_, by decide, by decide⟩
  intro hs
  simp [requestedHeadersOf, List.flatMap_assoc]

/-- C8: `deny_cors_header`'s requested-headers extraction is total on
arbitrary header maps: when no header is named
`access-control-request-headers` the sequence is empty, and entries whose
value is not valid UTF-8 (`none`) are filtered out without affecting the
result. -/
theorem requested_headers_absent_or_non_utf8 :
    (∀ hs : HeaderMap,
        (∀ e ∈ hs, lower e.name ≠ "access-control-request-headers") →
          requestedHeadersOf hs = []) ∧
    (∀ hs : HeaderMap,
        requestedHeadersOf (hs.filter (fun e => e.value.isSome)) =
          requestedHeadersOf hs) := by
  constructor
  · intro hs h
    have hnil : read_header_values hs "access-control-request-headers" = [] := by
      apply read_header_values_eq_nil
      intro e he
      rw [lower_acrh]
      exact h e he
    simp [requestedHeadersOf, hnil]
  · intro hs
    have key := filterMap_values_of_filter_isSome hs
      (fun e => lower e.name == lower "access-control-request-headers")
    simp only [requestedHeadersOf, read_header_values]
    rw [key]

/-- C8 witness: a map with only a `host` header yields no requested header
names. -/
theorem requested_headers_absent_witness :
    requestedHeadersOf [HeaderEntry.mk "host" (some "example.com")] = [] :=
  requested_headers_absent_or_non_utf8.1
    [HeaderEntry.mk "host" (some "example.com")] (by decide)

/-- C9: every builder method updates only its own field and leaves the other
three fields unchanged. -/
theorem builder_frame :
    (∀ (b : AccessControlBuilder) (h : Host),
        (b.allow_host h).cors_allow_origin = b.cors_allow_origin ∧
        (b.allow_host h).cors_allow_headers = b.cors_allow_headers ∧
        (b.allow_host h).continue_on_invalid_cors = b.continue_on_invalid_cors) ∧
    (∀ (b : AccessControlBuilder) (o : AccessControlAllowOrigin),
        (b.add_cors_allow_origin o).allow_hosts = b.allow_hosts ∧
        (b.add_cors_allow_origin o).cors_allow_headers = b.cors_allow_headers ∧
        (b.add_cors_allow_origin o).continue_on_invalid_cors = b.continue_on_invalid_cors) ∧
    (∀ (b : AccessControlBuilder) (s : String),
        (b.cors_allow_header s).allow_hosts = b.allow_hosts ∧
        (b.cors_allow_header s).cors_allow_origin = b.cors_allow_origin ∧
        (b.cors_allow_header s).continue_on_invalid_cors = b.continue_on_invalid_cors) ∧
    (∀ (b : AccessControlBuilder) (f : Bool),
        (b.set_continue_on_invalid_cors f).allow_hosts = b.allow_hosts ∧
        (b.set_continue_on_invalid_cors f).cors_allow_origin = b.cors_allow_origin ∧
        (b.set_continue_on_invalid_cors f).cors_allow_headers = b.cors_allow_headers) :=
  ⟨fun _ _ => ⟨rfl, rfl, rfl⟩, fun _ _ => ⟨rfl, rfl, rfl⟩,
   fun _ _ => ⟨rfl, rfl, rfl⟩, fun _ _ => ⟨rfl, rfl, rfl⟩⟩

/-- C10: building a fresh builder with no accumulation calls yields exactly
the default policy. -/
theorem new_build_eq_default :
    AccessControlBuilder.new.build = AccessControl.default :=
  rfl

end AccessCtrl
